import Mathlib

/-!
Shallow embedding of the v8-lint rule-based static-analysis core.

Sources embedded:
- `src/src/core/analyzer.ts` : `V8LintAnalyzer` (config, `analyze`, `shouldSkipFile`).
- `src/unnamed/part_000` : the rule-system types (`RuleSeverity`, `RuleCategory`,
  `V8LintIssue`, `RuleConfiguration`, `RuleMetadata`, `RuleSystemConfiguration`)
  and `BaseRule.configure`.
- `src/unnamed/part_001` : `RuleRegistry` (`registerRule`, `getMetadata`,
  `getRuleConfiguration`, `getActiveRules`, registry construction).

JavaScript exceptions are modelled with `Except String`; `Map` and `Record`
objects are modelled as association lists looked up by first match (the maps in
the source are only ever built with distinct keys); JS strings are handled as
`String` / `List Char`.
-/

/-- Severity levels `RuleSeverity` from the rule-system types: "error" | "warning" | "info" | "off". -/
inductive RuleSeverity where
  | error
  | warning
  | info
  | off
deriving DecidableEq, Repr

/-- Categories `RuleCategory` from the rule-system types: the six category strings. -/
inductive RuleCategory where
  | objectOptimization
  | arrayOptimization
  | functionOptimization
  | typeOptimization
  | memoryOptimization
  | regexpOptimization
deriving DecidableEq, Repr

/-- Values of the `impactLevel` field: "low" | "medium" | "high". -/
inductive ImpactLevel where
  | low
  | medium
  | high
deriving DecidableEq, Repr

/-- Rule-specific options: `Record<string, any>` modelled as a string-keyed
association list of opaque string values. -/
abbrev RuleOptions : Type := List (String × String)

/-- Per-rule `RuleConfiguration` from the rule-system types: all three fields are
required in the TypeScript interface. -/
structure RuleConfiguration where
  enabled : Bool
  severity : RuleSeverity
  options : RuleOptions
deriving DecidableEq, Repr

/-- Catalog entry `RuleMetadata` from the rule-system types (the `examples`, free-text and
versioning fields are kept as plain data). -/
structure RuleMetadata where
  id : String
  name : String
  description : String
  category : RuleCategory
  defaultSeverity : RuleSeverity
  documentation : String
  examplesBad : List String
  examplesGood : List String
  fixable : Bool
  requiresTypeInfo : Bool
  impactDescription : String
  v8Behavior : String
  tags : List String
  since : String
deriving DecidableEq, Repr

/-- Issue record `V8LintIssue` from the rule-system types (part_000). -/
structure V8LintIssue where
  ruleId : String
  category : RuleCategory
  severity : RuleSeverity
  message : String
  description : String
  line : Nat
  column : Nat
  endLine : Nat
  endColumn : Nat
  source : String
  fileName : String
  documentation : String
  tags : List String
  suggestedFix : Option String
  quickFixAvailable : Option Bool
  impactLevel : ImpactLevel
deriving DecidableEq, Repr

/-- System-wide `RuleSystemConfiguration` from the rule-system types. -/
structure RuleSystemConfiguration where
  enabled : Bool
  rules : List (String × RuleConfiguration)
  excludePatterns : List String
  includeCategories : List RuleCategory
  maxIssuesPerFile : Nat
deriving DecidableEq, Repr

/-- Analysis context `RuleContext` from the rule-system types, restricted to its data fields:
the syntax tree (`sourceFile`) and the three node utilities are omitted because
no embedded operation consults them (the analyzer never builds a context, and
the registry never calls `analyze`). -/
structure RuleContext where
  fileName : String
  sourceCode : String
  configuration : RuleConfiguration

/-- A rule (`V8LintRule`): its metadata plus its `analyze` operation. A thrown
JS exception is an `Except.error`. -/
structure V8LintRule where
  metadata : RuleMetadata
  analyze : RuleContext → Except String (List V8LintIssue)

/-- First-match lookup in a string-keyed association list (models
`Map.get` / record indexing; the maps in the source hold distinct keys). -/
def lookupStr {α : Type} (k : String) : List (String × α) → Option α
  | [] => none
  | p :: rest => if p.1 = k then some p.2 else lookupStr k rest

/-- JS `String.prototype.includes`: `sub` occurs as a contiguous substring.
Over `List Char`. -/
def jsIncludes (sub : List Char) : List Char → Bool
  | [] => sub.isPrefixOf []
  | c :: rest => sub.isPrefixOf (c :: rest) || jsIncludes sub rest

/-- JS `String.prototype.trim` whitespace test (space, tab, LF, VT, FF, CR). -/
def isJsWhitespace (c : Char) : Bool :=
  c = ' ' || c = '\t' || c = '\n' || c = '\x0b' || c = '\x0c' || c = '\r'

/-- JS `String.prototype.trim`: strip leading and trailing whitespace.
Over `List Char`. -/
def jsTrim (s : List Char) : List Char :=
  ((s.dropWhile isJsWhitespace).reverse.dropWhile isJsWhitespace).reverse

/-- JS `String.prototype.replace` with a string pattern: replaces only the
FIRST occurrence of `pat` (anywhere in the string) by `repl`; if `pat` does
not occur, the string is unchanged. Over `List Char`. -/
def jsReplaceFirst (pat repl : List Char) : List Char → List Char
  | [] => if pat = [] then repl else []
  | c :: rest =>
    if pat.isPrefixOf (c :: rest) then repl ++ (c :: rest).drop pat.length
    else c :: jsReplaceFirst pat repl rest

namespace V8LintAnalyzer

/-- Analyzer configuration `AnalyzerConfig` from `analyzer.ts`. -/
structure AnalyzerConfig where
  enabled : Bool
  rules : List (String × String)
  defaultSeverity : RuleSeverity
  excludePatterns : List String
deriving DecidableEq, Repr

/-- The default configuration set in the `V8LintAnalyzer` constructor. The
constructor's `ruleRegistry` parameter is discarded by the source (it is never
stored on the instance), so construction is modelled as this constant. -/
def defaultConfig : AnalyzerConfig :=
  { enabled := true
    rules := []
    defaultSeverity := RuleSeverity.warning
    excludePatterns := [] }

/-- Skip check `V8LintAnalyzer.shouldSkipFile`: some exclude pattern, after
`pattern.replace("**/", "").replace("/**", "")` (JS first-occurrence
replacement), is a substring of the file name. -/
def shouldSkipFile (config : AnalyzerConfig) (fileName : String) : Bool :=
  config.excludePatterns.any fun pattern =>
    jsIncludes (jsReplaceFirst "/**".data [] (jsReplaceFirst "**/".data [] pattern.data))
      fileName.data

/-- Main entry `V8LintAnalyzer.analyze`, instrumented with the parser it calls.

`parse` stands for `parseSourceCode` (which internally catches its own
exceptions and returns `null`, modelled as `none`, on catastrophic failure);
the returned `Nat` counts how many times the parser was invoked, so that the
short-circuit paths are observably parser-free. After a successful parse the
source body is `TODO` comments and `return []`; the rule registry is never
consulted (the analyzer does not even hold one), so no rule output can reach
the result. The outer `try`/`catch` also yields `[]`. -/
def analyze {Tree : Type} (config : AnalyzerConfig)
    (parse : String → String → Option Tree)
    (sourceCode fileName : String) :
    List V8LintIssue × Nat :=
  if config.enabled = false then ([], 0)
  else if shouldSkipFile config fileName then ([], 0)
  else if jsTrim sourceCode.data = [] then ([], 0)
  else
    match parse sourceCode fileName with
    | none => ([], 1)
    | some _ => ([], 1)

end V8LintAnalyzer

/-- The claimed normalization of C4: strip a LEADING `**/` and a TRAILING
`/**` (and nothing else). Written from the spec's words, to be compared with
the source's `shouldSkipFile`. -/
def specStripEdges (p : List Char) : List Char :=
  let q := if "**/".data.isPrefixOf p then p.drop 3 else p
  if "/**".data.isSuffixOf q then q.take (q.length - 3) else q

/-- The skip check as the spec's words describe it (claim C4): substring
containment of the edge-stripped pattern. -/
def specShouldSkipFile (config : V8LintAnalyzer.AnalyzerConfig)
    (fileName : String) : Bool :=
  config.excludePatterns.any fun pattern =>
    jsIncludes (specStripEdges pattern.data) fileName.data

/-- The normalization the source actually applies: remove the first
occurrence of `**/` anywhere, then the first occurrence of `/**` anywhere. -/
def codeNormalizePattern (p : List Char) : List Char :=
  jsReplaceFirst "/**".data [] (jsReplaceFirst "**/".data [] p)

namespace BaseRule

/-- Configuration update `BaseRule.configure`: `this.configuration = { ...this.configuration,
...config }`. `RuleConfiguration` requires all three fields, so the spread
takes every field from `config`; the merged object is written out field by
field as the spread produces it. -/
def configure (_old config : RuleConfiguration) : RuleConfiguration :=
  { enabled := config.enabled
    severity := config.severity
    options := config.options }

end BaseRule

namespace RuleRegistry

/-- The mutable state of a `RuleRegistry`: the registered rules (a `Map`
iterated in insertion order, keyed by `rule.metadata.id` — see
`registerRule`), the metadata catalog, and the system configuration. -/
structure State where
  rules : List V8LintRule
  metadata : List (String × RuleMetadata)
  configuration : RuleSystemConfiguration

/-- The default `RuleSystemConfiguration` set in the `RuleRegistry`
constructor. -/
def defaultConfiguration : RuleSystemConfiguration :=
  { enabled := true
    rules := []
    excludePatterns := ["**/node_modules/**", "**/dist/**", "**/build/**"]
    includeCategories :=
      [RuleCategory.objectOptimization, RuleCategory.arrayOptimization,
       RuleCategory.functionOptimization, RuleCategory.typeOptimization,
       RuleCategory.regexpOptimization]
    maxIssuesPerFile := 100 }

/-- Registration `RuleRegistry.registerRule`: throws when a rule with the same
`metadata.id` is already registered, otherwise appends the rule. -/
def registerRule (rules : List V8LintRule) (rule : V8LintRule) :
    Except String (List V8LintRule) :=
  if rules.any fun r => decide (r.metadata.id = rule.metadata.id) then
    Except.error ("Rule " ++ rule.metadata.id ++ " is already registered")
  else Except.ok (rules ++ [rule])

/-- Catalog access `RuleRegistry.getMetadata`: lookup in the metadata catalog, throwing when
the identity is absent. -/
def getMetadata (metadata : List (String × RuleMetadata)) (ruleId : String) :
    Except String RuleMetadata :=
  match lookupStr ruleId metadata with
  | none => Except.error ("Metadata not found for rule: " ++ ruleId)
  | some m => Except.ok m

/-- The registration loop of `loadRulesAndMetadata`: for each hardcoded rule
identity, fetch its metadata with `getMetadata`, construct the rule instance
(`mk`, standing for the per-rule constructors, which per `BaseRule`'s
constructor store the given metadata unchanged), and `registerRule` it. -/
def registerAll (metadata : List (String × RuleMetadata))
    (mk : RuleMetadata → V8LintRule) :
    List V8LintRule → List String → Except String (List V8LintRule)
  | rules, [] => Except.ok rules
  | rules, ruleId :: rest =>
    match getMetadata metadata ruleId with
    | Except.error e => Except.error e
    | Except.ok m =>
      match registerRule rules (mk m) with
      | Except.error e => Except.error e
      | Except.ok rules' => registerAll metadata mk rules' rest

/-- Registry construction (`constructor` + `loadRulesAndMetadata`): load the
catalog, then register one rule instance per identity in `ruleIds`. The
outer `try`/`catch` rethrows (`throw new Error(...)`), so failure still
aborts construction. -/
def initRegistry (catalog : List (String × RuleMetadata))
    (mk : RuleMetadata → V8LintRule) (ruleIds : List String) :
    Except String State :=
  match registerAll catalog mk [] ruleIds with
  | Except.error _ => Except.error "Failed to initialize rule registry"
  | Except.ok rules =>
    Except.ok { rules := rules, metadata := catalog,
                configuration := defaultConfiguration }

/-- Resolution `RuleRegistry.getRuleConfiguration`: throws when the identity has no
metadata; otherwise layers the user entry (`configuration.rules[ruleId]`,
may be absent) over the defaults `enabled=true`,
`severity=metadata.defaultSeverity`, `options={}` via `??`. -/
def getRuleConfiguration (s : State) (ruleId : String) :
    Except String RuleConfiguration :=
  match lookupStr ruleId s.metadata with
  | none => Except.error ("No metadata found for rule: " ++ ruleId)
  | some m =>
    let userConfig := lookupStr ruleId s.configuration.rules
    Except.ok
      { enabled := (userConfig.map RuleConfiguration.enabled).getD true
        severity := (userConfig.map RuleConfiguration.severity).getD m.defaultSeverity
        options := (userConfig.map RuleConfiguration.options).getD [] }

/-- The loop body of `getActiveRules`: iterate the rules map (key =
`rule.metadata.id`), resolve each rule's configuration (which can throw),
skip disabled / `off` / category-excluded rules, keep the rest in order. -/
def activeRulesLoop (s : State) : List V8LintRule → Except String (List V8LintRule)
  | [] => Except.ok []
  | rule :: rest =>
    match getRuleConfiguration s rule.metadata.id with
    | Except.error e => Except.error e
    | Except.ok ruleConfig =>
      if ((!ruleConfig.enabled) || (decide (ruleConfig.severity = RuleSeverity.off))) = true then
        activeRulesLoop s rest
      else if (s.configuration.includeCategories.any fun c =>
          decide (c = rule.metadata.category)) = false then
        activeRulesLoop s rest
      else
        match activeRulesLoop s rest with
        | Except.error e => Except.error e
        | Except.ok active => Except.ok (rule :: active)

/-- Filtering `RuleRegistry.getActiveRules`. -/
def getActiveRules (s : State) : Except String (List V8LintRule) :=
  if s.configuration.enabled = false then Except.ok []
  else activeRulesLoop s s.rules

/-- The activity test of claim C5, phrased as a predicate on one rule:
resolved configuration exists and is enabled with severity not `off`, and
the rule's category is included. -/
def isActiveRule (s : State) (rule : V8LintRule) : Bool :=
  match getRuleConfiguration s rule.metadata.id with
  | Except.error _ => false
  | Except.ok ruleConfig =>
    ruleConfig.enabled && !(decide (ruleConfig.severity = RuleSeverity.off))
      && s.configuration.includeCategories.any fun c =>
        decide (c = rule.metadata.category)

end RuleRegistry

/-- The analyzer configuration used by C4's counterexample: a single exclude
pattern whose `**/` occurs in the middle, where JS first-occurrence `replace`
and leading-edge stripping disagree. -/
def midGlobConfig : V8LintAnalyzer.AnalyzerConfig :=
  { V8LintAnalyzer.defaultConfig with excludePatterns := ["a**/b"] }

/-- Test-fixture metadata in the shape of the entries of
`src/src/rules/metadata.json` (documentation-only fields blank). -/
def sampleMetadata (id : String) (category : RuleCategory)
    (defaultSeverity : RuleSeverity) : RuleMetadata :=
  { id := id
    name := id
    description := ""
    category := category
    defaultSeverity := defaultSeverity
    documentation := ""
    examplesBad := []
    examplesGood := []
    fixable := false
    requiresTypeInfo := false
    impactDescription := ""
    v8Behavior := ""
    tags := []
    since := "0.1.0" }

/-- A test-fixture issue as a rule would build it. -/
def sampleIssue (ruleId : String) (category : RuleCategory) : V8LintIssue :=
  { ruleId := ruleId
    category := category
    severity := RuleSeverity.warning
    message := ""
    description := ""
    line := 1
    column := 17
    endLine := 1
    endColumn := 30
    source := ""
    fileName := "test.js"
    documentation := ""
    tags := []
    suggestedFix := none
    quickFixAvailable := some false
    impactLevel := ImpactLevel.medium }

/-- A test-fixture rule that reports a fixed issue list on every pass. -/
def sampleRule (id : String) (category : RuleCategory)
    (issues : List V8LintIssue) : V8LintRule :=
  { metadata := sampleMetadata id category RuleSeverity.warning
    analyze := fun _ => Except.ok issues }

/-- The context of one analysis pass over the spec's C1 scenario source. -/
def sampleContext : RuleContext :=
  { fileName := "test.js"
    sourceCode := "const obj = \x7b\x7d; obj.extra = 1;"
    configuration := { enabled := true, severity := RuleSeverity.warning, options := [] } }

/-- The issues a rule's `analyze` yields on a context, with a thrown
exception giving zero issues (the treatment the spec prescribes for the
analyzer boundary). -/
def issuesOf (rule : V8LintRule) (ctx : RuleContext) : List V8LintIssue :=
  match rule.analyze ctx with
  | Except.ok issues => issues
  | Except.error _ => []

/-- A registry state with one rule left at defaults and one rule disabled by
a user entry (`enabled=false`, `severity=off`). -/
def mixedRegistry : RuleRegistry.State :=
  { rules :=
      [sampleRule "no-dynamic-object-properties" RuleCategory.objectOptimization [],
       sampleRule "no-regexp-modification" RuleCategory.regexpOptimization []]
    metadata :=
      [("no-dynamic-object-properties",
        sampleMetadata "no-dynamic-object-properties" RuleCategory.objectOptimization
          RuleSeverity.warning),
       ("no-regexp-modification",
        sampleMetadata "no-regexp-modification" RuleCategory.regexpOptimization
          RuleSeverity.warning)]
    configuration :=
      { RuleRegistry.defaultConfiguration with
          rules :=
            [("no-regexp-modification",
              { enabled := false, severity := RuleSeverity.off, options := [] })] } }

/-- A two-entry metadata catalog for exercising registry construction. -/
def sampleCatalog : List (String × RuleMetadata) :=
  [("no-dynamic-object-properties",
    sampleMetadata "no-dynamic-object-properties" RuleCategory.objectOptimization
      RuleSeverity.warning),
   ("no-property-deletion",
    sampleMetadata "no-property-deletion" RuleCategory.objectOptimization
      RuleSeverity.warning)]

/-- A rule constructor in the shape of the per-rule classes: per `BaseRule`'s
constructor it stores the supplied metadata unchanged. -/
def mkSampleRule (m : RuleMetadata) : V8LintRule :=
  { metadata := m, analyze := fun _ => Except.ok [] }

/-- A rule that would report two issues each pass, in a registry whose
configured issue cap is 1 (for claim C8). -/
def twoIssueRule : V8LintRule :=
  sampleRule "no-dynamic-object-properties" RuleCategory.objectOptimization
    [sampleIssue "no-dynamic-object-properties" RuleCategory.objectOptimization,
     sampleIssue "no-dynamic-object-properties" RuleCategory.objectOptimization]

/-- Registry state for claim C8: the one active rule would produce two
issues, and `maxIssuesPerFile` is 1. -/
def capRegistry : RuleRegistry.State :=
  { rules := [twoIssueRule]
    metadata :=
      [("no-dynamic-object-properties",
        sampleMetadata "no-dynamic-object-properties" RuleCategory.objectOptimization
          RuleSeverity.warning)]
    configuration := { RuleRegistry.defaultConfiguration with maxIssuesPerFile := 1 } }

/-- A rule whose `analyze` throws on every pass (for claim C9). -/
def throwingRule : V8LintRule :=
  { metadata :=
      sampleMetadata "no-regexp-modification" RuleCategory.regexpOptimization
        RuleSeverity.warning
    analyze := fun _ => Except.error "simulated rule failure" }

/-- A healthy rule that would report one issue each pass (for claim C9). -/
def wellBehavedRule : V8LintRule :=
  sampleRule "no-property-deletion" RuleCategory.objectOptimization
    [sampleIssue "no-property-deletion" RuleCategory.objectOptimization]

/-- Registry state for claim C9: a throwing rule alongside a healthy rule,
both active under the default configuration. -/
def throwRegistry : RuleRegistry.State :=
  { rules := [throwingRule, wellBehavedRule]
    metadata :=
      [("no-regexp-modification",
        sampleMetadata "no-regexp-modification" RuleCategory.regexpOptimization
          RuleSeverity.warning),
       ("no-property-deletion",
        sampleMetadata "no-property-deletion" RuleCategory.objectOptimization
          RuleSeverity.warning)]
    configuration := RuleRegistry.defaultConfiguration }

/-- C2: For every source text, file identifier, configuration and parser,
`V8LintAnalyzer.analyze` returns the empty issue list: after the short-circuit
checks it parses the source (the TODO body), but the rule registry is never
consulted — the constructor discards its `ruleRegistry` argument — so no
input ever produces an issue. -/
theorem analyze_always_returns_no_issues (Tree : Type)
    (config : V8LintAnalyzer.AnalyzerConfig)
    (parse : String → String → Option Tree) (sourceCode fileName : String) :
    (V8LintAnalyzer.analyze config parse sourceCode fileName).1 = [] := by
  unfold V8LintAnalyzer.analyze
  repeat' split
  all_goals rfl

/-- C3: if the analyzer is disabled, or the identifier matches an exclude
pattern, or the source trims to empty, `analyze` returns the empty issue list
with zero parser invocations (no tree is built). -/
theorem analyze_short_circuits_without_parsing (Tree : Type)
    (config : V8LintAnalyzer.AnalyzerConfig)
    (parse : String → String → Option Tree) (sourceCode fileName : String)
    (h : config.enabled = false ∨ V8LintAnalyzer.shouldSkipFile config fileName = true ∨
      jsTrim sourceCode.data = []) :
    V8LintAnalyzer.analyze config parse sourceCode fileName = ([], 0) := by
  unfold V8LintAnalyzer.analyze
  rcases h with h | h | h
  · simp [h]
  · by_cases he : config.enabled = false <;> simp [he, h]
  · by_cases he : config.enabled = false
    · simp [he]
    · by_cases hs : V8LintAnalyzer.shouldSkipFile config fileName <;> simp [he, hs, h]

/-- Witness for C3: a disabled analyzer, a default-config analyzer on an
excluded-by-pattern file, and a whitespace-only source each short-circuit. -/
theorem analyze_short_circuits_without_parsing_witness :
    @V8LintAnalyzer.analyze Unit
      { V8LintAnalyzer.defaultConfig with enabled := false }
      (fun _ _ => some ()) "const x = 1;" "a.js" = ([], 0) ∧
    @V8LintAnalyzer.analyze Unit
      { V8LintAnalyzer.defaultConfig with excludePatterns := ["**/node_modules/**"] }
      (fun _ _ => some ()) "const x = 1;" "lib/node_modules/a.js" = ([], 0) ∧
    @V8LintAnalyzer.analyze Unit V8LintAnalyzer.defaultConfig
      (fun _ _ => some ()) "  \n\t " "a.js" = ([], 0) :=
  ⟨analyze_short_circuits_without_parsing Unit _ _ _ _ (Or.inl rfl),
   analyze_short_circuits_without_parsing Unit _ _ _ _ (Or.inr (Or.inl (by decide))),
   analyze_short_circuits_without_parsing Unit _ _ _ _ (Or.inr (Or.inr (by decide)))⟩

/-- C1 (stub behavior): on `const obj = \x7b\x7d; obj.extra = 1;` under the
default configuration the analyzer parses the file (parser invoked once) and
returns ZERO issues — not the one `no-dynamic-object-properties` issue the
spec's scenario requires, because the rule-running steps are TODO stubs. -/
theorem scenario_dynamic_property_yields_no_issue :
    @V8LintAnalyzer.analyze Unit V8LintAnalyzer.defaultConfig
      (fun _ _ => some ()) "const obj = \x7b\x7d; obj.extra = 1;" "test.js"
      = ([], 1) := by decide

/-- Counterexample to C4 as stated: for pattern `a**/b` (its `**/` is neither
leading nor is there a trailing `/**`), the code strips the mid-string `**/`
(JS `replace` removes the first occurrence anywhere) and so skips file `ab`,
while the claimed leading/trailing-only normalization keeps `a**/b` intact,
which is not a substring of `ab`. -/
theorem shouldSkipFile_not_edge_stripping :
    V8LintAnalyzer.shouldSkipFile midGlobConfig "ab" = true ∧
      specShouldSkipFile midGlobConfig "ab" = false := by decide

/-- C4 amended: the identifier is skipped exactly when it contains, as a
substring, the pattern normalized by removing the FIRST occurrence of `**/`
anywhere in the pattern and then the first occurrence of `/**` anywhere in
the result (JS `String.replace` first-occurrence semantics). -/
theorem shouldSkipFile_iff_contains_code_normalized
    (config : V8LintAnalyzer.AnalyzerConfig) (fileName : String) :
    V8LintAnalyzer.shouldSkipFile config fileName = true ↔
      ∃ p ∈ config.excludePatterns,
        jsIncludes (codeNormalizePattern p.data) fileName.data = true := by
  simp [V8LintAnalyzer.shouldSkipFile, codeNormalizePattern, List.any_eq_true]

/-- A successful first-match lookup returns a pair of the list. -/
theorem lookupStr_mem {α : Type} {k : String} {v : α} :
    ∀ {l : List (String × α)}, lookupStr k l = some v → (k, v) ∈ l
  | [], h => by simp [lookupStr] at h
  | (a, b) :: rest, h => by
    by_cases hp : a = k
    · have hv : b = v := by
        simp [lookupStr, hp] at h
        exact h
      rw [hp, hv]
      exact List.mem_cons_self _ _
    · simp only [lookupStr, if_neg hp] at h
      exact List.mem_cons_of_mem (a, b) (lookupStr_mem h)

/-- C7: `configure` replaces the stored configuration wholesale; after two
configure calls the stored configuration is exactly the last argument, with
no field carried over (`RuleConfiguration` requires all fields, so the
spread takes every field from the new configuration). -/
theorem configure_replaces_wholesale (init c1 c2 : RuleConfiguration) :
    BaseRule.configure (BaseRule.configure init c1) c2 = c2 := rfl

/-- C6: with metadata present, the resolved configuration takes `enabled`
from the user entry when one exists and `true` otherwise, `severity` from
the user entry when one exists and the metadata's `defaultSeverity`
otherwise, and `options` from the user entry when one exists and empty
otherwise. -/
theorem getRuleConfiguration_layers_user_over_defaults
    (s : RuleRegistry.State) (ruleId : String) (m : RuleMetadata)
    (h : lookupStr ruleId s.metadata = some m) :
    RuleRegistry.getRuleConfiguration s ruleId = Except.ok
      { enabled :=
          match lookupStr ruleId s.configuration.rules with
          | some u => u.enabled
          | none => true
        severity :=
          match lookupStr ruleId s.configuration.rules with
          | some u => u.severity
          | none => m.defaultSeverity
        options :=
          match lookupStr ruleId s.configuration.rules with
          | some u => u.options
          | none => [] } := by
  unfold RuleRegistry.getRuleConfiguration
  rw [h]
  cases hu : lookupStr ruleId s.configuration.rules <;> simp [hu]

/-- Witness for C6: in `mixedRegistry`, the rule with a user entry resolves
to the user's fields, applied through the theorem at
`"no-regexp-modification"`. -/
theorem getRuleConfiguration_layers_user_over_defaults_witness :
    RuleRegistry.getRuleConfiguration mixedRegistry "no-regexp-modification" = Except.ok
      { enabled :=
          match lookupStr "no-regexp-modification" mixedRegistry.configuration.rules with
          | some u => u.enabled
          | none => true
        severity :=
          match lookupStr "no-regexp-modification" mixedRegistry.configuration.rules with
          | some u => u.severity
          | none =>
            (sampleMetadata "no-regexp-modification" RuleCategory.regexpOptimization
              RuleSeverity.warning).defaultSeverity
        options :=
          match lookupStr "no-regexp-modification" mixedRegistry.configuration.rules with
          | some u => u.options
          | none => [] } :=
  getRuleConfiguration_layers_user_over_defaults mixedRegistry "no-regexp-modification"
    (sampleMetadata "no-regexp-modification" RuleCategory.regexpOptimization
      RuleSeverity.warning) (by decide)

/-- The `getActiveRules` loop keeps exactly the rules passing the activity
test, in order, whenever every listed rule has catalog metadata. -/
theorem activeRulesLoop_eq_filter (s : RuleRegistry.State) :
    ∀ l : List V8LintRule,
      (∀ r ∈ l, (lookupStr r.metadata.id s.metadata).isSome = true) →
      RuleRegistry.activeRulesLoop s l =
        Except.ok (l.filter (RuleRegistry.isActiveRule s))
  | [], _ => rfl
  | rule :: rest, h => by
    have hr : (lookupStr rule.metadata.id s.metadata).isSome = true :=
      h rule (List.mem_cons_self rule rest)
    obtain ⟨m, hm⟩ := Option.isSome_iff_exists.mp hr
    have hex : ∃ rc, RuleRegistry.getRuleConfiguration s rule.metadata.id = Except.ok rc := by
      unfold RuleRegistry.getRuleConfiguration
      rw [hm]
      exact ⟨_, rfl⟩
    obtain ⟨rc, hrc⟩ := hex
    have ih := activeRulesLoop_eq_filter s rest
      (fun r hrm => h r (List.mem_cons_of_mem rule hrm))
    have hact : RuleRegistry.isActiveRule s rule =
        (rc.enabled && (!decide (rc.severity = RuleSeverity.off)) &&
          (s.configuration.includeCategories.any fun c =>
            decide (c = rule.metadata.category))) := by
      unfold RuleRegistry.isActiveRule
      rw [hrc]
    rw [List.filter_cons, hact]
    unfold RuleRegistry.activeRulesLoop
    rw [hrc]
    cases hen : rc.enabled <;>
      cases hoff : decide (rc.severity = RuleSeverity.off) <;>
        cases hcat : (s.configuration.includeCategories.any fun c =>
          decide (c = rule.metadata.category)) <;>
      simp [hen, hoff, hcat, ih]

/-- C5: whenever every registered rule has catalog metadata (a construction
invariant), `getActiveRules` returns exactly the registered rules that are
resolved-enabled, resolved-severity-not-off and category-included, in
registration order — and the empty list when the global flag is off. -/
theorem getActiveRules_eq_filter (s : RuleRegistry.State)
    (h : (s.rules.all fun r => (lookupStr r.metadata.id s.metadata).isSome) = true) :
    RuleRegistry.getActiveRules s =
      Except.ok (if s.configuration.enabled = true then
        s.rules.filter (RuleRegistry.isActiveRule s) else []) := by
  have h' : ∀ r ∈ s.rules, (lookupStr r.metadata.id s.metadata).isSome = true := by
    simpa [List.all_eq_true] using h
  unfold RuleRegistry.getActiveRules
  cases he : s.configuration.enabled
  · simp [he]
  · simp [he, activeRulesLoop_eq_filter s s.rules h']

/-- Witness for C5 on `mixedRegistry`: the default-configured rule is kept
and the user-disabled rule is dropped. -/
theorem getActiveRules_eq_filter_witness :
    RuleRegistry.getActiveRules mixedRegistry =
      Except.ok (if mixedRegistry.configuration.enabled = true then
        mixedRegistry.rules.filter (RuleRegistry.isActiveRule mixedRegistry) else []) :=
  getActiveRules_eq_filter mixedRegistry (by decide)

/-- Lemma: `registerAll` succeeds exactly when every identity is in the catalog, the
identities are distinct, and none collides with an already-registered rule. -/
theorem registerAll_isOk_iff (catalog : List (String × RuleMetadata))
    (mk : RuleMetadata → V8LintRule)
    (hmk : ∀ m, (mk m).metadata = m)
    (hcat : ∀ p ∈ catalog, p.2.id = p.1) :
    ∀ (ids : List String) (acc : List V8LintRule),
      (RuleRegistry.registerAll catalog mk acc ids).isOk = true ↔
        ((∀ i ∈ ids, (lookupStr i catalog).isSome = true) ∧ ids.Nodup ∧
          ∀ i ∈ ids, ∀ r ∈ acc, r.metadata.id ≠ i)
  | [], acc => by simp [RuleRegistry.registerAll, Except.isOk, Except.toBool]
  | i :: rest, acc => by
    cases hm : lookupStr i catalog with
    | none =>
      simp only [RuleRegistry.registerAll, RuleRegistry.getMetadata, hm]
      simp [Except.isOk, Except.toBool, hm]
    | some m =>
      have hid : m.id = i := hcat (i, m) (lookupStr_mem hm)
      have hmkid : (mk m).metadata.id = i := by rw [hmk m, hid]
      simp only [RuleRegistry.registerAll, RuleRegistry.getMetadata, hm,
        RuleRegistry.registerRule, hmkid]
      have hpre_i : (lookupStr i catalog).isSome = true := by simp [hm]
      cases hdup : acc.any fun r => decide (r.metadata.id = i) with
      | true =>
        obtain ⟨r0, hr0mem, hr0⟩ := List.any_eq_true.mp hdup
        rw [if_pos rfl]
        constructor
        · intro habs
          simp [Except.isOk, Except.toBool] at habs
        · rintro ⟨-, -, hnone⟩
          exact absurd (of_decide_eq_true hr0)
            (hnone i (List.mem_cons_self i rest) r0 hr0mem)
      | false =>
        have hnodup : ∀ r ∈ acc, r.metadata.id ≠ i := by
          intro r hrm
          have := List.any_eq_false.mp hdup r hrm
          simpa using this
        rw [if_neg (by simp : ¬(false = true))]
        show (RuleRegistry.registerAll catalog mk (acc ++ [mk m]) rest).isOk = true ↔ _
        rw [registerAll_isOk_iff catalog mk hmk hcat rest (acc ++ [mk m])]
        constructor
        · rintro ⟨hpre, hnd, hacc⟩
          refine ⟨?_, ?_, ?_⟩
          · intro j hj
            rcases List.mem_cons.mp hj with rfl | hj'
            · exact hpre_i
            · exact hpre j hj'
          · refine List.nodup_cons.mpr ⟨?_, hnd⟩
            intro hmem
            exact (hacc i hmem (mk m)
              (List.mem_append_right _ (List.mem_singleton_self _))) hmkid
          · intro j hj r hrm
            rcases List.mem_cons.mp hj with rfl | hj'
            · exact hnodup r hrm
            · exact hacc j hj' r (List.mem_append_left _ hrm)
        · rintro ⟨hpre, hnd, hacc⟩
          refine ⟨fun j hj => hpre j (List.mem_cons_of_mem i hj),
            (List.nodup_cons.mp hnd).2, ?_⟩
          intro j hj r hrm
          rcases List.mem_append.mp hrm with h0 | h0
          · exact hacc j (List.mem_cons_of_mem i hj) r h0
          · have hr : r = mk m := List.mem_singleton.mp h0
            rw [hr, hmkid]
            intro habs
            exact (List.nodup_cons.mp hnd).1 (by rw [habs]; exact hj)

/-- C10: registry construction succeeds exactly when every registered
identity has a catalog entry and no identity is registered twice; otherwise
it aborts with an error (never silently skipping a rule). Hypotheses: rule
constructors store their metadata unchanged (as `BaseRule`'s constructor
does) and catalog keys match their entries' `id` (as `metadata.json` does). -/
theorem initRegistry_ok_iff_ids_present_and_distinct
    (catalog : List (String × RuleMetadata)) (mk : RuleMetadata → V8LintRule)
    (ids : List String)
    (hmk : ∀ m, (mk m).metadata = m)
    (hcat : ∀ p ∈ catalog, p.2.id = p.1) :
    (RuleRegistry.initRegistry catalog mk ids).isOk = true ↔
      (ids.Nodup ∧ (ids.all fun i => (lookupStr i catalog).isSome) = true) := by
  have hiff := registerAll_isOk_iff catalog mk hmk hcat ids []
  have hsimp : ((∀ i ∈ ids, (lookupStr i catalog).isSome = true) ∧ ids.Nodup ∧
      ∀ i ∈ ids, ∀ r ∈ ([] : List V8LintRule), r.metadata.id ≠ i) ↔
      (ids.Nodup ∧ (ids.all fun i => (lookupStr i catalog).isSome) = true) := by
    simp only [List.not_mem_nil, ne_eq, IsEmpty.forall_iff, implies_true, and_true,
      List.all_eq_true]
    exact and_comm
  rw [← hsimp, ← hiff]
  unfold RuleRegistry.initRegistry
  cases hra : RuleRegistry.registerAll catalog mk [] ids <;>
    simp [hra, Except.isOk, Except.toBool]

/-- Witness for C10: on the two-entry catalog, registering the two distinct
present identities succeeds, in accordance with the iff. -/
theorem initRegistry_ok_iff_witness :
    (RuleRegistry.initRegistry sampleCatalog mkSampleRule
        ["no-dynamic-object-properties", "no-property-deletion"]).isOk = true ↔
      ((["no-dynamic-object-properties", "no-property-deletion"] : List String).Nodup ∧
        ((["no-dynamic-object-properties", "no-property-deletion"] : List String).all
          fun i => (lookupStr i sampleCatalog).isSome) = true) :=
  initRegistry_ok_iff_ids_present_and_distinct sampleCatalog mkSampleRule
    ["no-dynamic-object-properties", "no-property-deletion"]
    (fun _ => rfl) (by decide)

/-- C8 (stub behavior): with one active rule that would produce two issues
and `maxIssuesPerFile = 1`, the analyzer still returns ZERO issues, not the
first one: `analyze` never runs the rules and never applies the cap. -/
theorem analyzer_never_applies_issue_cap :
    (match RuleRegistry.getActiveRules capRegistry with
      | Except.ok l => (l.map fun r => (issuesOf r sampleContext).length).sum
      | Except.error _ => 0) = 2 ∧
    capRegistry.configuration.maxIssuesPerFile = 1 ∧
    (@V8LintAnalyzer.analyze Unit V8LintAnalyzer.defaultConfig
      (fun _ _ => some ()) sampleContext.sourceCode sampleContext.fileName).1.length = 0 := by
  refine ⟨by decide, rfl, by decide⟩

/-- C9 (stub behavior): with a throwing rule and a healthy rule both active,
the healthy rule's one issue does NOT appear in the analyzer's result — the
analyzer returns the empty list because it never invokes any rule, so the
claimed per-rule failure isolation is unexercised and the healthy rule's
issues are lost. -/
theorem rule_failure_isolation_unimplemented :
    (match RuleRegistry.getActiveRules throwRegistry with
      | Except.ok l => l.length
      | Except.error _ => 0) = 2 ∧
    (match throwingRule.analyze sampleContext with
      | Except.error _ => true
      | Except.ok _ => false) = true ∧
    (issuesOf wellBehavedRule sampleContext).length = 1 ∧
    (@V8LintAnalyzer.analyze Unit V8LintAnalyzer.defaultConfig
      (fun _ _ => some ()) sampleContext.sourceCode sampleContext.fileName).1.length = 0 := by
  refine ⟨by decide, rfl, rfl, by decide⟩
